import Mathlib

/-!
Shallow embedding of the AI-Employee orchestration system
(orchestrator.py, ralph_loop.py, security_config.py) and proofs of the
frozen claims about it.

Conventions of the embedding:
* Python floats used as POSIX timestamps are modelled as rationals (ℚ).
* Filesystem reads that may fail are modelled as `Option` inputs;
  filesystem writes that may fail are modelled through an explicit
  `Except`-returning primitive that the embedded function catches.
* Mutable object state is threaded explicitly as structures.
* Wall-clock inputs (`datetime.now`, `time.time`) are explicit arguments.
-/

namespace Spec2Proof

/-! ### String helpers shared by several modules

`leadMatch p l` is Python's `l.startswith(p)` on character lists, and
`strIncludes hay pat` is Python's `pat in hay` substring test. -/

def leadMatch : List Char → List Char → Bool
  | [], _ => true
  | _ :: _, [] => false
  | p :: ps, c :: cs => p == c && leadMatch ps cs

def hasSub (pat : List Char) : List Char → Bool
  | [] => leadMatch pat []
  | c :: cs => leadMatch pat (c :: cs) || hasSub pat cs

def strStarts (s pre : String) : Bool := leadMatch pre.toList s.toList

def strIncludes (hay pat : String) : Bool := hasSub pat.toList hay.toList

/-- Python `str.lower()` restricted to the ASCII letters that occur in the
environment values compared by the code. -/
def strLower (s : String) : String := ⟨s.toList.map Char.toLower⟩

/-- The characters stripped by Python's `str.strip()` (ASCII whitespace:
space, tab, newline, carriage return, vertical tab, form feed). -/
def isPySpace (c : Char) : Bool :=
  [' ', '\x09', '\x0a', '\x0d', '\x0b', '\x0c'].contains c

/-- Python `str.strip()`. -/
def pyStrip (s : String) : String :=
  let l := s.toList.dropWhile isPySpace
  ⟨(l.reverse.dropWhile isPySpace).reverse⟩

/-! ### security_config.py — `_RateLimitBucket` (lines 44-76)

`allow()` purges timestamps at or before `now - window_seconds`
(the Python list comprehension keeps `t > cutoff`), then admits by
appending `now` only if the retained count is below `max_count`. -/

structure RateLimitBucket where
  max_count : ℕ
  window_seconds : ℚ
  timestamps : List ℚ

/-- `_RateLimitBucket.allow` — returns the admission decision and the
bucket state after the call. -/
def RateLimitBucket.allow (b : RateLimitBucket) (now : ℚ) :
    Bool × RateLimitBucket :=
  let cutoff := now - b.window_seconds
  let kept := b.timestamps.filter (fun t => cutoff < t)
  if b.max_count ≤ kept.length then
    (false, { b with timestamps := kept })
  else
    (true, { b with timestamps := kept ++ [now] })

/-- `_RateLimitBucket.current_count` — purges, then counts. -/
def RateLimitBucket.current_count (b : RateLimitBucket) (now : ℚ) :
    ℕ × RateLimitBucket :=
  let cutoff := now - b.window_seconds
  let kept := b.timestamps.filter (fun t => cutoff < t)
  (kept.length, { b with timestamps := kept })

/-! ### DRY_RUN parsing (C9)

`Orchestrator.from_env` (orchestrator.py lines 116-126) computes
`os.getenv("DRY_RUN", "true").lower() == "true"`, while
`SecurityConfig.__init__` (security_config.py lines 84-87) computes
`os.getenv("DRY_RUN", "true").lower() != "false"`.  The environment
variable is `none` when unset. -/

def orchestratorDryRun (env : Option String) : Bool :=
  strLower (env.getD "true") == "true"

def securityDryRun (env : Option String) : Bool :=
  !(strLower (env.getD "true") == "false")

/-! ### orchestrator.py — `_detect_item_type` (lines 533-545)

Reads the file (any exception yields "unknown"), splits on newlines,
strips each line, returns the text after the colon of the first line
starting with "type:".  The frontmatter-terminator branch
`if line == "---" and not line.startswith("---")` is kept verbatim:
its condition is unsatisfiable, so the loop scans every line. -/

/-- Characters after the first `:` of a line (the `split(":", 1)[1]`);
only reached on lines that start with `type:`, so a colon exists. -/
def afterColon : List Char → List Char
  | [] => []
  | c :: cs => if c == ':' then cs else afterColon cs

def strAfterColon (s : String) : String := ⟨afterColon s.toList⟩

def detectGo : List String → String
  | [] => "unknown"
  | line :: rest =>
    let s := pyStrip line
    if strStarts s "type:" then pyStrip (strAfterColon s)
    else if s == "---" && !(strStarts s "---") then "unknown"
    else detectGo rest

/-- `Orchestrator._detect_item_type`: `content = none` models
`read_text` raising (the `except` branch). -/
def detect_item_type (content : Option String) : String :=
  match content with
  | none => "unknown"
  | some text => detectGo (text.splitOn "\n")

/-! ### orchestrator.py — dispatch with retry (lines 198-296)

`_run_skill` invokes the Claude CLI subprocess; its outcome is an
environment input here (a `Bool` per attempt).  On success it increments
`_total_skills_run`.  `_run_skill_with_retry` invokes once, on failure
invokes exactly once more, and if the second attempt also fails it
increments `_total_errors`, records `_last_error`, and `_create_alert`
writes one alert file into `Needs_Action`.  `alerts` counts the alert
files created; the third component of the result counts the underlying
`_run_skill` invocation attempts. -/

structure OrchState where
  totalSkillsRun : ℕ
  totalErrors : ℕ
  lastError : Option String
  alerts : ℕ

/-- `Orchestrator._run_skill` with the subprocess outcome abstracted as
`outcome`. -/
def run_skill (outcome : Bool) (st : OrchState) : Bool × OrchState :=
  if outcome then
    (true, { st with totalSkillsRun := st.totalSkillsRun + 1 })
  else
    (false, st)

/-- `Orchestrator._create_alert` — writes one alert file. -/
def create_alert (st : OrchState) : OrchState :=
  { st with alerts := st.alerts + 1 }

/-- `Orchestrator._run_skill_with_retry` over the outcomes `o1, o2` of
the first and (if reached) second underlying invocations.  Returns
(overall success, state, number of attempts made). -/
def run_skill_with_retry (skill : String) (o1 o2 : Bool) (st : OrchState) :
    Bool × OrchState × ℕ :=
  let r1 := run_skill o1 st
  if r1.1 then (true, r1.2, 1)
  else
    let r2 := run_skill o2 r1.2
    if r2.1 then (true, r2.2, 2)
    else
      let st3 := { r2.2 with
        totalErrors := r2.2.totalErrors + 1,
        lastError := some skill }
      (false, create_alert st3, 2)

/-! ### orchestrator.py — new-file detection (lines 171-194)

`_detect_new_needs_action` computes the set difference between the
current scan and the known snapshot, then replaces the snapshot.
File paths are abstracted to an arbitrary decidable-equality type. -/

/-- One `_detect_new_needs_action` call: given the known snapshot and
the current scan result, returns (new files, replaced snapshot). -/
def detect_new {α : Type} [DecidableEq α] (known current : Finset α) :
    Finset α × Finset α :=
  (current \ known, current)

/-- The `_known_needs_action` snapshot after `n` detection calls against
the scan sequence `s`, starting from the initial snapshot `k0`. -/
def knownAt {α : Type} [DecidableEq α] (s : ℕ → Finset α) (k0 : Finset α) :
    ℕ → Finset α
  | 0 => k0
  | n + 1 => (detect_new (knownAt s k0 n) (s n)).2

/-- The set of files reported as new by the `n`-th detection call. -/
def reportedAt {α : Type} [DecidableEq α] (s : ℕ → Finset α) (k0 : Finset α)
    (n : ℕ) : Finset α :=
  (detect_new (knownAt s k0 n) (s n)).1

/-! ### orchestrator.py — `_should_run_briefing` (lines 327-337)

Fires when the weekday is `BRIEFING_DAY`, the hour is `BRIEFING_HOUR`,
and `_last_briefing_check` differs from today's date string; firing
records today's date.  Dates are abstracted to ℕ preserving their total
order (the `%Y-%m-%d` strings compare chronologically);
`_last_briefing_check = ""` initially is `none`. -/

def BRIEFING_DAY : ℕ := 6
def BRIEFING_HOUR : ℕ := 23

structure Instant where
  date : ℕ
  weekday : ℕ
  hour : ℕ
deriving DecidableEq

/-- One evaluation of `_should_run_briefing`: returns whether the
briefing fires and the updated `_last_briefing_check`. -/
def should_run_briefing (last : Option ℕ) (t : Instant) :
    Bool × Option ℕ :=
  if t.weekday = BRIEFING_DAY ∧ t.hour = BRIEFING_HOUR ∧ last ≠ some t.date
  then (true, some t.date)
  else (false, last)

/-- `_last_briefing_check` before the `n`-th evaluation, for the
evaluation-time sequence `ts`. -/
def briefLastAt (ts : ℕ → Instant) : ℕ → Option ℕ
  | 0 => none
  | n + 1 => (should_run_briefing (briefLastAt ts n) (ts n)).2

/-- Whether the `n`-th evaluation of `_should_run_briefing` fires. -/
def briefFiredAt (ts : ℕ → Instant) (n : ℕ) : Bool :=
  (should_run_briefing (briefLastAt ts n) (ts n)).1

/-! ### security_config.py — `audit_log` (lines 211-269)

The entry dict is serialized with `json.dumps` and appended, plus a
newline, to the day's JSON-lines file.  Serialized text is modelled as
`List Char`; the escaping of `json.dumps` (ensure_ascii) is embedded for
quote, backslash, the named control escapes and the `\uXXXX` form, which
is what makes the serialized entry newline-free.  The audit file is
`none` when absent; `open(..., "a")` creates it.  An `OSError` on write
(modelled by `writable = false`) is caught and logged, never raised, so
`audit_log` always returns the entry normally. -/

def hexChars : List Char := "0123456789abcdef".toList

def hexDigitChar (n : ℕ) : Char := hexChars.getD n '0'

def jsonEscapeChar (c : Char) : List Char :=
  if c == '"' then "\\\"".toList
  else if c == '\\' then "\\\\".toList
  else if c == '\n' then "\\n".toList
  else if c == '\r' then "\\r".toList
  else if c == '\t' then "\\t".toList
  else if c.toNat < 32 ∨ 126 < c.toNat then
    "\\u".toList
      ++ [hexDigitChar (c.toNat / 4096 % 16), hexDigitChar (c.toNat / 256 % 16),
          hexDigitChar (c.toNat / 16 % 16), hexDigitChar (c.toNat % 16)]
  else [c]

/-- A JSON string literal: quotes around the escaped characters. -/
def jsonStr (s : String) : List Char :=
  '"' :: s.toList.flatMap jsonEscapeChar ++ ['"']

def jsonBool (b : Bool) : List Char := if b then "true".toList else "false".toList

structure AuditEntry where
  timestamp : String
  action_type : String
  actor : String
  target : String
  dry_run : Bool
  result : String
  metadata : List (String × String)

def renderMetaItems : List (String × String) → List Char
  | [] => []
  | [p] => jsonStr p.1 ++ ": ".toList ++ jsonStr p.2
  | p :: q :: rest =>
    jsonStr p.1 ++ ": ".toList ++ jsonStr p.2 ++ ", ".toList
      ++ renderMetaItems (q :: rest)

/-- `json.dumps(entry)`: keys in insertion order; the `metadata` key is
present only when the metadata dict is non-empty (Python `if metadata:`). -/
def renderEntry (e : AuditEntry) : List Char :=
  "\x7b".toList
    ++ jsonStr "timestamp" ++ ": ".toList ++ jsonStr e.timestamp ++ ", ".toList
    ++ jsonStr "action_type" ++ ": ".toList ++ jsonStr e.action_type ++ ", ".toList
    ++ jsonStr "actor" ++ ": ".toList ++ jsonStr e.actor ++ ", ".toList
    ++ jsonStr "target" ++ ": ".toList ++ jsonStr e.target ++ ", ".toList
    ++ jsonStr "dry_run" ++ ": ".toList ++ jsonBool e.dry_run ++ ", ".toList
    ++ jsonStr "result" ++ ": ".toList ++ jsonStr e.result
    ++ (match e.metadata with
        | [] => []
        | m => ", ".toList ++ jsonStr "metadata" ++ ": ".toList
            ++ "\x7b".toList ++ renderMetaItems m ++ "\x7d".toList)
    ++ "\x7d".toList

/-- `open(audit_file, "a")` followed by `f.write(s)`: creates the file
when absent, raises `OSError` when the directory is unwritable. -/
def fileAppend (writable : Bool) (file : Option (List Char)) (s : List Char) :
    Except Unit (List Char) :=
  if writable then .ok (file.getD [] ++ s) else .error ()

/-- `audit_log`: builds the entry (resolving `dry_run=None` against the
security singleton), tries to append one serialized line, catches any
`OSError`, and returns the entry. -/
def audit_log (writable : Bool) (file : Option (List Char))
    (timestamp action_type actor target result : String)
    (dry_run : Option Bool) (securityDryRunFlag : Bool)
    (metadata : List (String × String)) :
    Option (List Char) × AuditEntry :=
  let entry : AuditEntry :=
    { timestamp := timestamp, action_type := action_type, actor := actor,
      target := target, dry_run := dry_run.getD securityDryRunFlag,
      result := result, metadata := metadata }
  match fileAppend writable file (renderEntry entry ++ ['\n']) with
  | .ok f => (some f, entry)
  | .error _ => (file, entry)

/-! ### ralph_loop.py — the iterative task runner (lines 40-470)

The per-iteration environment supplies what the outside world does:
whether `_running` is still true when the iteration starts (signals),
the outcome and stdout of the `claude` subprocess, whether the task file
was found in `/Done/` (an external move), and whether `Needs_Action`
held no pending `*.md` items.  Iteration records keep the fields the
claims observe (`number`, `success`); timestamp, duration and the output
summary are wall-clock/string details not modelled.  `alerts` records,
per alert file written into `Needs_Action` (the inbox), the number of
iteration entries it lists. -/

inductive Loc
  | inProgress
  | done
deriving DecidableEq

structure IterRec where
  number : ℕ
  success : Bool
deriving DecidableEq

structure RLState where
  iterations : List IterRec
  taskLoc : Loc
  status : String
  alerts : List ℕ
  completed : Bool
deriving DecidableEq

structure IterEnv where
  running : Bool
  execSuccess : Bool
  execOutput : String
  doneExists : Bool
  pendingEmpty : Bool

/-- `RalphLoop.COMPLETION_MARKER`. -/
def COMPLETION_MARKER : String := "TASK_COMPLETE"

/-- `RalphLoop._update_task_file`: writes the status; when the status is
`completed` and the file is still under `In_Progress`, relocates it to
`Done` (unlink + write at the new path). -/
def update_task_file (st : RLState) (status : String) : RLState :=
  if status = "completed" ∧ st.taskLoc = Loc.inProgress then
    { st with status := status, taskLoc := Loc.done }
  else { st with status := status }

/-- `RalphLoop._check_completion`: done-file location first, then the
`TASK_COMPLETE` marker in the output, then the empty-`Needs_Action`
heuristic; finding the file in `/Done/` retargets `self.task_file`. -/
def check_completion (desc : String) (e : IterEnv) (st : RLState) :
    Bool × RLState :=
  if e.doneExists then (true, { st with taskLoc := Loc.done })
  else if strIncludes e.execOutput COMPLETION_MARKER then (true, st)
  else if e.pendingEmpty && strIncludes desc "Needs_Action" then (true, st)
  else (false, st)

/-- `RalphLoop._create_alert`: one alert file into `Needs_Action`,
listing one entry per recorded iteration. -/
def rl_create_alert (st : RLState) : RLState :=
  { st with alerts := st.alerts ++ [st.iterations.length] }

/-- The `for iteration in range(1, max_iterations + 1)` loop of
`RalphLoop.run`, with `fuel` iterations remaining and `i` the current
iteration number.  Returns the boolean result of `run` and the final
state. -/
def runIters (desc : String) (env : ℕ → IterEnv) :
    (fuel : ℕ) → (i : ℕ) → RLState → Bool × RLState
  | 0, _, st =>
    let st1 := update_task_file st "max_iterations_exceeded"
    (false, rl_create_alert st1)
  | fuel + 1, i, st =>
    let e := env i
    if e.running then
      let st1 := { st with iterations := st.iterations ++ [⟨i, e.execSuccess⟩] }
      if e.execSuccess then
        let c := check_completion desc e st1
        if c.1 then
          (true, update_task_file { c.2 with completed := true } "completed")
        else
          runIters desc env fuel (i + 1) (update_task_file c.2 "in_progress")
      else
        runIters desc env fuel (i + 1) (update_task_file st1 "in_progress")
    else
      (false, update_task_file st "interrupted")

/-- `RalphLoop.run`: the task file is created in `In_Progress` with
status `in_progress`, then the loop runs up to `maxIterations` times. -/
def rl_run (desc : String) (maxIterations : ℕ) (env : ℕ → IterEnv) :
    Bool × RLState :=
  runIters desc env maxIterations 1
    { iterations := [], taskLoc := Loc.inProgress, status := "in_progress",
      alerts := [], completed := false }

/-- `ralph_loop.main`: `sys.exit(0 if success else 1)`. -/
def rl_exit_code (success : Bool) : ℕ := if success then 0 else 1

/-! ### Concrete environments used to exercise the theorems -/

/-- An environment whose executor invocation always reports failure. -/
def rlFailEnv : ℕ → IterEnv :=
  fun _ => { running := true, execSuccess := false, execOutput := "",
             doneExists := false, pendingEmpty := false }

/-- An environment whose first iteration succeeds with the task file
found in `/Done/`. -/
def rlDoneEnv : ℕ → IterEnv :=
  fun _ => { running := true, execSuccess := true, execOutput := "",
             doneExists := true, pendingEmpty := false }

/-- An evaluation-time sequence that is always Sunday 11PM, one per day. -/
def briefWitnessSeq : ℕ → Instant :=
  fun n => { date := n, weekday := 6, hour := 23 }

end Spec2Proof

namespace Spec2Proof

/-! ## Theorems -/

/-- C1: dispatched through `_run_skill_with_retry`, an invocation that
fails once then succeeds yields overall success with exactly 2 attempts,
no alert file and no error-counter change; an invocation that fails
twice yields overall failure with exactly 2 attempts, the global error
counter incremented by one, and exactly one alert file written. -/
theorem run_skill_with_retry_policy (skill : String) (st : OrchState) :
    (run_skill_with_retry skill false true st).1 = true ∧
    (run_skill_with_retry skill false true st).2.2 = 2 ∧
    (run_skill_with_retry skill false true st).2.1.alerts = st.alerts ∧
    (run_skill_with_retry skill false true st).2.1.totalErrors = st.totalErrors ∧
    (run_skill_with_retry skill false false st).1 = false ∧
    (run_skill_with_retry skill false false st).2.2 = 2 ∧
    (run_skill_with_retry skill false false st).2.1.totalErrors = st.totalErrors + 1 ∧
    (run_skill_with_retry skill false false st).2.1.alerts = st.alerts + 1 := by
  simp [run_skill_with_retry, run_skill, create_alert]

/-- C4: `_check_completion` evaluates its methods in strict precedence:
when the task state file already exists in `/Done/`, it reports
completion regardless of the captured output, the pending items, or the
task description. -/
theorem check_completion_done_file_first (desc output : String)
    (running execS pendingEmpty : Bool) (st : RLState) :
    (check_completion desc
      { running := running, execSuccess := execS, execOutput := output,
        doneExists := true, pendingEmpty := pendingEmpty } st).1 = true := by
  simp [check_completion]

/-- C9 counterexample: with `DRY_RUN=1`, `Orchestrator.from_env` parses
dry-run as `false` while `SecurityConfig` parses it as `true`, so the
two components do not compute the same mode for every value. -/
theorem dry_run_parsers_disagree :
    orchestratorDryRun (some "1") ≠ securityDryRun (some "1") := by decide

/-- C9 amended: the two dry-run booleans agree exactly when the
lowercased value of `DRY_RUN` (defaulted to "true" when unset) is the
string "true" or the string "false"; on any other value the
orchestrator reads live mode while the security layer reads dry-run. -/
theorem dry_run_parsers_agree_iff (env : Option String) :
    orchestratorDryRun env = securityDryRun env ↔
      (strLower (env.getD "true") = "true" ∨
       strLower (env.getD "true") = "false") := by
  unfold orchestratorDryRun securityDryRun
  by_cases h1 : strLower (env.getD "true") = "true"
  · rw [h1]; decide
  · by_cases h2 : strLower (env.getD "true") = "false"
    · rw [h2]; decide
    · have e1 : (strLower (env.getD "true") == "true") = false :=
        beq_eq_false_iff_ne.mpr h1
      have e2 : (strLower (env.getD "true") == "false") = false :=
        beq_eq_false_iff_ne.mpr h2
      rw [e1, e2]
      simp [h1, h2]

/-- Eliminating the dead frontmatter-terminator branch: the scan of
`_detect_item_type` returns the stripped text after the colon of the
first stripped line that starts with `type:`, and "unknown" when no
line does. -/
theorem detectGo_spec (lines : List String) :
    detectGo lines =
      (match lines.find? (fun l => strStarts (pyStrip l) "type:") with
       | some l => pyStrip (strAfterColon (pyStrip l))
       | none => "unknown") := by
  induction lines with
  | nil => rfl
  | cons line rest ih =>
    by_cases h : strStarts (pyStrip line) "type:" = true
    · simp [detectGo, List.find?_cons, h]
    · have h' : strStarts (pyStrip line) "type:" = false := by
        simpa using h
      by_cases hs : (pyStrip line == "---") = true
      · have hseq : pyStrip line = "---" := by simpa using hs
        have hst : strStarts (pyStrip line) "---" = true := by
          rw [hseq]; decide
        simp [detectGo, List.find?_cons, h', hst, ih]
      · have hs' : (pyStrip line == "---") = false := by
          simpa using hs
        simp [detectGo, List.find?_cons, h', hs', ih]

/-- C10: `_detect_item_type` is total — a failed read (`none`) yields
"unknown", and a readable file yields the stripped text after the colon
of the first stripped line starting with `type:`, or "unknown" when no
such line exists. -/
theorem detect_item_type_total_spec (text : String) :
    detect_item_type none = "unknown" ∧
    detect_item_type (some text) =
      (match (text.splitOn "\n").find?
          (fun l => strStarts (pyStrip l) "type:") with
       | some l => pyStrip (strAfterColon (pyStrip l))
       | none => "unknown") :=
  ⟨rfl, detectGo_spec _⟩

/-- C2: a bucket with `max_count = 3` and a 60-second window, starting
empty: four `allow()` calls within one 60-second window answer
true, true, true, false; the denied call appends no new timestamp (the
bucket still holds exactly the three admitted timestamps); and a call
made once the window has elapsed since the admitted calls is allowed
again. -/
theorem rate_limit_bucket_seq (t1 t2 t3 t4 t5 : ℚ)
    (h12 : t1 ≤ t2) (h23 : t2 ≤ t3) (h34 : t3 ≤ t4)
    (hwin : t4 - t1 < 60) (h5 : t3 + 60 ≤ t5) :
    ((⟨3, 60, []⟩ : RateLimitBucket).allow t1).1 = true ∧
    (((⟨3, 60, []⟩ : RateLimitBucket).allow t1).2.allow t2).1 = true ∧
    ((((⟨3, 60, []⟩ : RateLimitBucket).allow t1).2.allow t2).2.allow t3).1
      = true ∧
    (((((⟨3, 60, []⟩ : RateLimitBucket).allow t1).2.allow t2).2.allow
      t3).2.allow t4).1 = false ∧
    (((((⟨3, 60, []⟩ : RateLimitBucket).allow t1).2.allow t2).2.allow
      t3).2.allow t4).2.timestamps = [t1, t2, t3] ∧
    ((((((⟨3, 60, []⟩ : RateLimitBucket).allow t1).2.allow t2).2.allow
      t3).2.allow t4).2.allow t5).1 = true := by
  have k21 : t2 - 60 < t1 := by linarith
  have k31 : t3 - 60 < t1 := by linarith
  have k32 : t3 - 60 < t2 := by linarith
  have k41 : t4 - 60 < t1 := by linarith
  have k42 : t4 - 60 < t2 := by linarith
  have k43 : t4 - 60 < t3 := by linarith
  have p51 : ¬(t5 - 60 < t1) := by linarith
  have p52 : ¬(t5 - 60 < t2) := by linarith
  have p53 : ¬(t5 - 60 < t3) := by linarith
  have e1 : (⟨3, 60, []⟩ : RateLimitBucket).allow t1
      = (true, ⟨3, 60, [t1]⟩) := by
    simp [RateLimitBucket.allow]
  have e2 : (⟨3, 60, [t1]⟩ : RateLimitBucket).allow t2
      = (true, ⟨3, 60, [t1, t2]⟩) := by
    simp [RateLimitBucket.allow, k21]
  have e3 : (⟨3, 60, [t1, t2]⟩ : RateLimitBucket).allow t3
      = (true, ⟨3, 60, [t1, t2, t3]⟩) := by
    simp [RateLimitBucket.allow, k31, k32]
  have e4 : (⟨3, 60, [t1, t2, t3]⟩ : RateLimitBucket).allow t4
      = (false, ⟨3, 60, [t1, t2, t3]⟩) := by
    simp [RateLimitBucket.allow, k41, k42, k43]
  have e5 : ((⟨3, 60, [t1, t2, t3]⟩ : RateLimitBucket).allow t5).1
      = true := by
    simp [RateLimitBucket.allow, p51, p52, p53]
  rw [e1, e2, e3, e4]
  exact ⟨rfl, rfl, rfl, rfl, rfl, e5⟩

/-- Witness for C2 at times 0, 10, 20, 30 and 90. -/
theorem rate_limit_bucket_seq_witness :
    (((((⟨3, 60, []⟩ : RateLimitBucket).allow 0).2.allow 10).2.allow
      20).2.allow 30).1 = false ∧
    ((((((⟨3, 60, []⟩ : RateLimitBucket).allow 0).2.allow 10).2.allow
      20).2.allow 30).2.allow 90).1 = true :=
  ⟨(rate_limit_bucket_seq 0 10 20 30 90 (by norm_num) (by norm_num)
      (by norm_num) (by norm_num) (by norm_num)).2.2.2.1,
   (rate_limit_bucket_seq 0 10 20 30 90 (by norm_num) (by norm_num)
      (by norm_num) (by norm_num) (by norm_num)).2.2.2.2.2⟩

/-- C3: a file present in the current scan and absent from the previous
known snapshot is reported as new by that detection call; and because
the snapshot is replaced on each call, a file present in scan `n` is
never reported as new by call `n + 1`, so a file that remains present is
reported exactly once. -/
theorem detect_new_reported_once {α : Type} [DecidableEq α]
    (s : ℕ → Finset α) (k0 : Finset α) (f : α) (n : ℕ) :
    (f ∈ s n → f ∉ knownAt s k0 n → f ∈ reportedAt s k0 n) ∧
    (f ∈ s n → f ∉ reportedAt s k0 (n + 1)) := by
  constructor
  · intro h1 h2
    simp only [reportedAt, detect_new, Finset.mem_sdiff]
    exact ⟨h1, h2⟩
  · intro h1
    simp only [reportedAt, detect_new, knownAt, Finset.mem_sdiff, not_and,
      not_not]
    intro _
    exact h1

/-- Witness for C3: with nothing known initially and the file `0`
present in every scan, it is reported by the first call and not by the
second. -/
theorem detect_new_reported_once_witness :
    0 ∈ reportedAt (fun _ => ({0} : Finset ℕ)) ∅ 0 ∧
    0 ∉ reportedAt (fun _ => ({0} : Finset ℕ)) ∅ 1 :=
  ⟨(detect_new_reported_once (fun _ => ({0} : Finset ℕ)) ∅ 0 0).1
      (by decide) (by decide),
   (detect_new_reported_once (fun _ => ({0} : Finset ℕ)) ∅ 0 0).2
      (by decide)⟩

/-- Firing `_should_run_briefing` records today's date and requires the
recorded date to differ from today. -/
theorem briefing_fired_state (l : Option ℕ) (t : Instant)
    (h : (should_run_briefing l t).1 = true) :
    (should_run_briefing l t).2 = some t.date ∧ l ≠ some t.date := by
  unfold should_run_briefing at *
  split at h
  · rename_i hc
    constructor
    · simp [should_run_briefing]
      split
      · rfl
      · rename_i hn; exact absurd hc hn
    · exact hc.2.2
  · simp at h

/-- A non-firing evaluation leaves `_last_briefing_check` unchanged. -/
theorem briefing_unfired_state (l : Option ℕ) (t : Instant)
    (h : (should_run_briefing l t).1 = false) :
    (should_run_briefing l t).2 = l := by
  unfold should_run_briefing at *
  split at h
  · simp at h
  · split
    · rename_i hn hc; exact absurd hc hn
    · rfl

/-- After an evaluation fires, `_last_briefing_check` always holds the
date of some evaluation at or after it. -/
theorem briefLast_after_fire (ts : ℕ → Instant) (i : ℕ)
    (hi : briefFiredAt ts i = true) :
    ∀ k, i < k →
      ∃ m, i ≤ m ∧ m < k ∧ briefLastAt ts k = some ((ts m).date) := by
  intro k
  induction k with
  | zero => omega
  | succ k ihk =>
    intro hk
    rcases Nat.lt_or_ge i k with h | h
    · obtain ⟨m, him, hmk, hlast⟩ := ihk h
      by_cases hf : briefFiredAt ts k = true
      · refine ⟨k, Nat.le_of_lt h, Nat.lt_succ_self k, ?_⟩
        have := (briefing_fired_state (briefLastAt ts k) (ts k) hf).1
        simpa [briefLastAt] using this
      · refine ⟨m, him, Nat.lt_succ_of_lt hmk, ?_⟩
        have hf' : briefFiredAt ts k = false := by simpa using hf
        have := briefing_unfired_state (briefLastAt ts k) (ts k) hf'
        simp only [briefLastAt]
        rw [this, hlast]
    · have hik : k = i := by omega
      subst hik
      refine ⟨k, Nat.le_refl k, Nat.lt_succ_self k, ?_⟩
      have := (briefing_fired_state (briefLastAt ts k) (ts k) hi).1
      simpa [briefLastAt] using this

/-- C7: along any evaluation sequence whose dates do not decrease (time
moves forward), `_should_run_briefing` returns true at most once per
calendar date: two distinct firing evaluations have distinct dates. -/
theorem briefing_at_most_once_per_date (ts : ℕ → Instant)
    (hmono : ∀ i j, i ≤ j → (ts i).date ≤ (ts j).date)
    (i j : ℕ) (hij : i < j)
    (hi : briefFiredAt ts i = true) (hj : briefFiredAt ts j = true) :
    (ts i).date ≠ (ts j).date := by
  intro heq
  obtain ⟨m, him, hmj, hlast⟩ := briefLast_after_fire ts i hi j hij
  have h1 : (ts i).date ≤ (ts m).date := hmono i m him
  have h2 : (ts m).date ≤ (ts j).date := hmono m j (Nat.le_of_lt hmj)
  have hmd : (ts m).date = (ts j).date := by omega
  have hne := (briefing_fired_state (briefLastAt ts j) (ts j) hj).2
  rw [hlast, hmd] at hne
  exact hne rfl

/-- Witness for C7: on consecutive Sundays at 11PM the predicate fires
on both days, and the two firings are on different dates. -/
theorem briefing_at_most_once_per_date_witness :
    briefFiredAt briefWitnessSeq 0 = true ∧
    briefFiredAt briefWitnessSeq 1 = true ∧
    (briefWitnessSeq 0).date ≠ (briefWitnessSeq 1).date :=
  ⟨by decide, by decide,
   briefing_at_most_once_per_date briefWitnessSeq (fun _ _ h => h) 0 1
     (by decide) (by decide) (by decide)⟩

/-- C5: with `max_iterations = 2` and an executor that always reports
failure (and no shutdown signal), `RalphLoop.run` performs exactly 2
iterations, ends with status `max_iterations_exceeded`, writes exactly
one alert file listing 2 iteration entries into `Needs_Action`, returns
failure, and the CLI exits with a non-zero code. -/
theorem rl_run_exhaustion (desc : String) (env : ℕ → IterEnv)
    (hrun : ∀ n, (env n).running = true)
    (hfail : ∀ n, (env n).execSuccess = false) :
    (rl_run desc 2 env).1 = false ∧
    (rl_run desc 2 env).2.iterations.length = 2 ∧
    (rl_run desc 2 env).2.status = "max_iterations_exceeded" ∧
    (rl_run desc 2 env).2.alerts = [2] ∧
    rl_exit_code (rl_run desc 2 env).1 ≠ 0 := by
  have h1r := hrun 1
  have h2r := hrun 2
  have h1f := hfail 1
  have h2f := hfail 2
  simp [rl_run, runIters, update_task_file, rl_create_alert, rl_exit_code,
    h1r, h2r, h1f, h2f]

/-- Witness for C5: the always-failing environment. -/
theorem rl_run_exhaustion_witness :
    (rl_run "t" 2 rlFailEnv).1 = false ∧
    (rl_run "t" 2 rlFailEnv).2.iterations.length = 2 ∧
    (rl_run "t" 2 rlFailEnv).2.status = "max_iterations_exceeded" ∧
    (rl_run "t" 2 rlFailEnv).2.alerts = [2] ∧
    rl_exit_code (rl_run "t" 2 rlFailEnv).1 ≠ 0 :=
  rl_run_exhaustion "t" rlFailEnv (fun _ => rfl) (fun _ => rfl)

/-- C6 counterexample: a run that exhausts its iterations ends in the
terminal status `max_iterations_exceeded` with the task state file still
in `In_Progress` — it is not relocated to `Done`. -/
theorem rl_run_terminal_relocation_cex :
    (rl_run "t" 1 rlFailEnv).2.status = "max_iterations_exceeded" ∧
    (rl_run "t" 1 rlFailEnv).2.taskLoc ≠ Loc.done := by decide

/-- A failed completion check leaves the run state untouched. -/
theorem check_completion_false_state (desc : String) (e : IterEnv)
    (st : RLState) (h : (check_completion desc e st).1 = false) :
    (check_completion desc e st).2 = st := by
  unfold check_completion at h ⊢
  split_ifs at h ⊢
  all_goals simp_all

/-- `_update_task_file` always records the requested status. -/
theorem update_task_file_status (st : RLState) (status : String) :
    (update_task_file st status).status = status := by
  unfold update_task_file
  split <;> rfl

/-- `_update_task_file` does not move the file for a status other than
`completed`. -/
theorem update_task_file_loc_of_ne (st : RLState) (status : String)
    (h : status ≠ "completed") :
    (update_task_file st status).taskLoc = st.taskLoc := by
  unfold update_task_file
  rw [if_neg (fun hcon => h hcon.1)]

/-- Writing status `completed` leaves the file in `Done`, whether it was
still in `In_Progress` (it is moved) or already there. -/
theorem update_task_file_completed_loc (st : RLState)
    (h : st.taskLoc = Loc.inProgress ∨ st.taskLoc = Loc.done) :
    (update_task_file st "completed").taskLoc = Loc.done := by
  unfold update_task_file
  rcases h with h | h
  · rw [if_pos ⟨rfl, h⟩]
  · have hne : ¬("completed" = "completed" ∧ st.taskLoc = Loc.inProgress) := by
      rintro ⟨-, hcon⟩
      rw [h] at hcon
      exact Loc.noConfusion hcon
    rw [if_neg hne]
    exact h

/-- One unfolding of the loop body of `RalphLoop.run`. -/
theorem runIters_succ (desc : String) (env : ℕ → IterEnv) (fuel i : ℕ)
    (st : RLState) :
    runIters desc env (fuel + 1) i st =
      if (env i).running then
        (if (env i).execSuccess then
          (if (check_completion desc (env i)
                { st with iterations :=
                    st.iterations ++ [⟨i, (env i).execSuccess⟩] }).1 then
            (true, update_task_file
              { (check_completion desc (env i)
                  { st with iterations :=
                      st.iterations ++ [⟨i, (env i).execSuccess⟩] }).2 with
                completed := true } "completed")
          else
            runIters desc env fuel (i + 1)
              (update_task_file
                (check_completion desc (env i)
                  { st with iterations :=
                      st.iterations ++ [⟨i, (env i).execSuccess⟩] }).2
                "in_progress"))
        else
          runIters desc env fuel (i + 1)
            (update_task_file
              { st with iterations :=
                  st.iterations ++ [⟨i, (env i).execSuccess⟩] }
              "in_progress"))
      else (false, update_task_file st "interrupted") := rfl

/-- Loop invariant for `RalphLoop.run`: starting from a task file in
`In_Progress`, the loop always ends in one of the three terminal
statuses; it ends in `Done` exactly for `completed`, and stays in
`In_Progress` otherwise. -/
theorem runIters_terminal_loc (desc : String) (env : ℕ → IterEnv) :
    ∀ (fuel i : ℕ) (st : RLState), st.taskLoc = Loc.inProgress →
      ((runIters desc env fuel i st).2.status = "completed" ∨
       (runIters desc env fuel i st).2.status = "interrupted" ∨
       (runIters desc env fuel i st).2.status = "max_iterations_exceeded") ∧
      ((runIters desc env fuel i st).2.status = "completed" →
        (runIters desc env fuel i st).2.taskLoc = Loc.done) ∧
      ((runIters desc env fuel i st).2.status ≠ "completed" →
        (runIters desc env fuel i st).2.taskLoc = Loc.inProgress) := by
  intro fuel
  induction fuel with
  | zero =>
    intro i st hloc
    have e0 : runIters desc env 0 i st
        = (false, rl_create_alert
            (update_task_file st "max_iterations_exceeded")) := rfl
    have hstat : (rl_create_alert
        (update_task_file st "max_iterations_exceeded")).status
        = "max_iterations_exceeded" :=
      update_task_file_status st _
    have hl : (rl_create_alert
        (update_task_file st "max_iterations_exceeded")).taskLoc
        = Loc.inProgress := by
      show (update_task_file st "max_iterations_exceeded").taskLoc
          = Loc.inProgress
      rw [update_task_file_loc_of_ne st _ (by decide)]
      exact hloc
    rw [e0]
    refine ⟨Or.inr (Or.inr hstat), fun hcomp => ?_, fun _ => hl⟩
    rw [hstat] at hcomp
    exact absurd hcomp (by decide)
  | succ fuel ih =>
    intro i st hloc
    rw [runIters_succ]
    by_cases hr : (env i).running = true
    · rw [if_pos hr]
      by_cases hs : (env i).execSuccess = true
      · rw [if_pos hs]
        by_cases hc : (check_completion desc (env i)
            { st with iterations :=
                st.iterations ++ [⟨i, (env i).execSuccess⟩] }).1 = true
        · rw [if_pos hc]
          have hstat := update_task_file_status
            { (check_completion desc (env i)
                { st with iterations :=
                    st.iterations ++ [⟨i, (env i).execSuccess⟩] }).2 with
              completed := true } "completed"
          have hdone : (update_task_file
              { (check_completion desc (env i)
                  { st with iterations :=
                      st.iterations ++ [⟨i, (env i).execSuccess⟩] }).2 with
                completed := true } "completed").taskLoc = Loc.done := by
            apply update_task_file_completed_loc
            rcases hl : (check_completion desc (env i)
                { st with iterations :=
                    st.iterations ++ [⟨i, (env i).execSuccess⟩] }).2.taskLoc
            · exact Or.inl rfl
            · exact Or.inr rfl
          exact ⟨Or.inl hstat, fun _ => hdone, fun hne => absurd hstat hne⟩
        · have hcf : (check_completion desc (env i)
              { st with iterations :=
                  st.iterations ++ [⟨i, (env i).execSuccess⟩] }).1 = false := by
            simpa using hc
          rw [if_neg hc]
          have hkeep := check_completion_false_state desc (env i)
            { st with iterations :=
                st.iterations ++ [⟨i, (env i).execSuccess⟩] } hcf
          have hloc2 : (update_task_file
              (check_completion desc (env i)
                { st with iterations :=
                    st.iterations ++ [⟨i, (env i).execSuccess⟩] }).2
              "in_progress").taskLoc = Loc.inProgress := by
            rw [hkeep, update_task_file_loc_of_ne _ _ (by decide)]
            exact hloc
          exact ih (i + 1) _ hloc2
      · rw [if_neg hs]
        have hloc2 : (update_task_file
            { st with iterations :=
                st.iterations ++ [⟨i, (env i).execSuccess⟩] }
            "in_progress").taskLoc = Loc.inProgress := by
          rw [update_task_file_loc_of_ne _ _ (by decide)]
          exact hloc
        exact ih (i + 1) _ hloc2
    · rw [if_neg hr]
      have hstat := update_task_file_status st "interrupted"
      have hl2 : (update_task_file st "interrupted").taskLoc
          = Loc.inProgress := by
        rw [update_task_file_loc_of_ne st _ (by decide)]
        exact hloc
      refine ⟨Or.inr (Or.inl hstat), fun hcomp => ?_, fun _ => hl2⟩
      rw [hstat] at hcomp
      exact absurd hcomp (by decide)

/-- C6 amended: every run of the iterative task runner ends in a
terminal status (`completed`, `interrupted` or
`max_iterations_exceeded`), but the task state file is relocated from
`In_Progress` to `Done` only when that status is `completed`; runs
ending `interrupted` or `max_iterations_exceeded` leave the file in
`In_Progress`. -/
theorem rl_run_relocation_on_completion (desc : String)
    (maxIterations : ℕ) (env : ℕ → IterEnv) :
    ((rl_run desc maxIterations env).2.status = "completed" ∨
     (rl_run desc maxIterations env).2.status = "interrupted" ∨
     (rl_run desc maxIterations env).2.status = "max_iterations_exceeded") ∧
    ((rl_run desc maxIterations env).2.status = "completed" →
      (rl_run desc maxIterations env).2.taskLoc = Loc.done) ∧
    ((rl_run desc maxIterations env).2.status ≠ "completed" →
      (rl_run desc maxIterations env).2.taskLoc = Loc.inProgress) := by
  unfold rl_run
  exact runIters_terminal_loc desc env maxIterations 1 _ rfl

/-- Witness for C6 amended: an externally completed task ends in `Done`. -/
theorem rl_run_relocation_on_completion_witness :
    (rl_run "t" 1 rlDoneEnv).2.status = "completed" ∧
    (rl_run "t" 1 rlDoneEnv).2.taskLoc = Loc.done :=
  ⟨by decide,
   (rl_run_relocation_on_completion "t" 1 rlDoneEnv).2.1 (by decide)⟩

/-- `hexDigitChar` never produces a newline. -/
theorem hexDigitChar_ne_newline (n : ℕ) : hexDigitChar n ≠ '\n' := by
  unfold hexDigitChar
  rcases Nat.lt_or_ge n 16 with h | h
  · interval_cases n <;> decide
  · rw [List.getD_eq_default]
    · decide
    · have hl : hexChars.length = 16 := by decide
      omega

/-- The `json.dumps` character escaping never emits a raw newline. -/
theorem newline_not_mem_jsonEscapeChar (c : Char) :
    '\n' ∉ jsonEscapeChar c := by
  unfold jsonEscapeChar
  split_ifs with h1 h2 h3 h4 h5 h6
  · decide
  · decide
  · decide
  · decide
  · decide
  · intro hm
    rcases List.mem_append.mp hm with h | h
    · exact absurd h (by decide)
    · simp only [List.mem_cons, List.not_mem_nil, or_false] at h
      rcases h with h | h | h | h
      · exact hexDigitChar_ne_newline _ h.symm
      · exact hexDigitChar_ne_newline _ h.symm
      · exact hexDigitChar_ne_newline _ h.symm
      · exact hexDigitChar_ne_newline _ h.symm
  · intro hm
    simp only [List.mem_singleton] at hm
    exact h3 (by rw [← hm]; rfl)

theorem noNL_append {a b : List Char} (ha : '\n' ∉ a) (hb : '\n' ∉ b) :
    '\n' ∉ a ++ b := by
  intro h
  rcases List.mem_append.mp h with h | h
  · exact ha h
  · exact hb h

/-- Escaped JSON string literals are newline-free. -/
theorem newline_not_mem_jsonStr (s : String) : '\n' ∉ jsonStr s := by
  unfold jsonStr
  intro hm
  rcases List.mem_cons.mp hm with h | h
  · exact absurd h (by decide)
  rcases List.mem_append.mp h with h | h
  · obtain ⟨c, -, hc⟩ := List.mem_flatMap.mp h
    exact newline_not_mem_jsonEscapeChar c hc
  · exact absurd (List.mem_singleton.mp h) (by decide)

theorem newline_not_mem_jsonBool (b : Bool) : '\n' ∉ jsonBool b := by
  cases b <;> decide

theorem newline_not_mem_renderMetaItems (m : List (String × String)) :
    '\n' ∉ renderMetaItems m := by
  induction m with
  | nil => simp [renderMetaItems]
  | cons p rest ih =>
    cases rest with
    | nil =>
      exact noNL_append (noNL_append (newline_not_mem_jsonStr _)
        (by decide)) (newline_not_mem_jsonStr _)
    | cons q rest2 =>
      exact noNL_append (noNL_append (noNL_append (noNL_append
        (newline_not_mem_jsonStr _) (by decide))
        (newline_not_mem_jsonStr _)) (by decide)) ih

/-- The serialized audit entry is newline-free: `json.dumps` output
occupies a single line. -/
theorem newline_not_mem_renderEntry (e : AuditEntry) :
    '\n' ∉ renderEntry e := by
  obtain ⟨ts, aty, ac, tg, dr, res, md⟩ := e
  have e1 : ∀ s : String, ('\n' ∈ jsonStr s) = False :=
    fun s => eq_false (newline_not_mem_jsonStr s)
  have e2 : ∀ b : Bool, ('\n' ∈ jsonBool b) = False :=
    fun b => eq_false (newline_not_mem_jsonBool b)
  have e3 : ∀ m : List (String × String),
      ('\n' ∈ renderMetaItems m) = False :=
    fun m => eq_false (newline_not_mem_renderMetaItems m)
  have l1 : ('\n' ∈ "\x7b".toList) = False := by decide
  have l2 : ('\n' ∈ ": ".toList) = False := by decide
  have l3 : ('\n' ∈ ", ".toList) = False := by decide
  have l4 : ('\n' ∈ "\x7d".toList) = False := by decide
  have l5 : ('\n' ∈ ([] : List Char)) = False := by decide
  intro hmem
  unfold renderEntry at hmem
  cases md with
  | nil =>
    simp only [List.mem_append, e1, e2, e3, l1, l2, l3, l4, l5, or_false,
      false_or] at hmem
  | cons p rest =>
    simp only [List.mem_append, e1, e2, e3, l1, l2, l3, l4, l5, or_false,
      false_or] at hmem

/-- C8: when the audit file is writable, `audit_log` appends exactly the
serialized entry plus a newline — one JSON line, growing the file's line
count by exactly one and creating the file with no header when it was
absent; when the write raises `OSError` (unwritable directory), the
error is swallowed, the file is untouched, and the call still returns
the entry normally instead of raising. -/
theorem audit_log_spec (writable : Bool) (file : Option (List Char))
    (ts aty ac tg res : String) (dry : Option Bool) (secFlag : Bool)
    (md : List (String × String)) :
    (writable = true →
      (audit_log writable file ts aty ac tg res dry secFlag md).1
        = some (file.getD []
            ++ renderEntry
                (audit_log writable file ts aty ac tg res dry secFlag md).2
            ++ ['\n']) ∧
      ((audit_log writable file ts aty ac tg res dry secFlag md).1.getD
          []).count '\n' = (file.getD []).count '\n' + 1) ∧
    (file = none → writable = true →
      (audit_log writable file ts aty ac tg res dry secFlag md).1
        = some (renderEntry
            (audit_log writable file ts aty ac tg res dry secFlag md).2
            ++ ['\n'])) ∧
    (writable = false →
      (audit_log writable file ts aty ac tg res dry secFlag md).1
        = file) := by
  refine ⟨fun hw => ?_, fun hn hw => ?_, fun hw => ?_⟩
  · subst hw
    constructor
    · simp [audit_log, fileAppend, List.append_assoc]
    · have hz : (renderEntry
          (audit_log true file ts aty ac tg res dry secFlag md).2).count '\n'
          = 0 :=
        List.count_eq_zero.mpr (newline_not_mem_renderEntry _)
      simp [audit_log, fileAppend, List.count_append] at hz ⊢
      simp [hz]
  · subst hn
    subst hw
    simp [audit_log, fileAppend]
  · subst hw
    rfl

/-- Witness for C8: a writable, initially absent audit file receives
exactly the serialized entry and its newline. -/
theorem audit_log_spec_witness :
    (audit_log true none "a" "b" "c" "d" "e" none false []).1
      = some (renderEntry
          (audit_log true none "a" "b" "c" "d" "e" none false []).2
          ++ ['\n']) :=
  (audit_log_spec true none "a" "b" "c" "d" "e" none false []).2.1 rfl rfl

end Spec2Proof
